import Mathlib

/-!
Verification of the NBR-Restrictor core (src/utils.py): the cardinality
filters, the product-assortment filter, the user sampler, and the
history/future splitter.

A dataframe's rows are modelled as a list of records of an arbitrary type
with decidable equality; the configured `user_col` / `basket_col` /
`product_col` accesses are modelled as projection functions out of the row
type, so every theorem quantifying over them covers every choice of column
names.  Pandas boolean-mask filtering (`df[mask]`) becomes `List.filter`,
`Series.unique()` becomes first-occurrence deduplication, `groupby(k)[v]`
aggregations become aggregations over the sublist of rows sharing the key,
and the seeded sampler `Series.sample(n, random_state=42)` is modelled by a
deterministic linear-congruential draw without replacement (the concrete
pseudorandom permutation is abstracted; determinism, distinctness, subset
and size are preserved).  For `split_history_future`, the column-level
bookkeeping (the merge that adds a `max_order` column and the later
`drop(columns='max_order')`, which raises `KeyError` when the merge had to
suffix a pre-existing `max_order` column) is tracked by an explicit column
list and an `Except` result.
-/

namespace NBR

-- Decidable equality of fallible results, for evaluating the splitter on concrete frames.
deriving instance DecidableEq for Except

/-- A transaction record: the three columns the core operations read.  The
projections used by each operation are passed in explicitly, so `Row` is
only the concrete instantiation used for witnesses. -/
structure Row where
  user : Int
  basket : Int
  product : Int
  deriving DecidableEq, Repr

/-- Linear congruential step, the deterministic pseudorandom source standing
in for the fixed-seed generator behind `Series.sample(..., random_state=42)`. -/
def lcgNext (s : Nat) : Nat := (s * 1103515245 + 12345) % 4294967296

/-- Draw `k` elements without replacement from `l`, driven by the seed `s`:
each step removes the element at the pseudorandom index `s % l.length`. -/
def seededSampleAux {β : Type} : Nat → Nat → List β → List β
  | 0, _, _ => []
  | _ + 1, _, [] => []
  | k + 1, s, x :: xs =>
    (x :: xs).getD (s % (x :: xs).length) x ::
      seededSampleAux k (lcgNext s) ((x :: xs).eraseIdx (s % (x :: xs).length))

/-- Model of `pd.Series(l).sample(n=k, random_state=seed)`: a deterministic
sample of `k` elements of `l` without replacement. -/
def seededSample {β : Type} (seed k : Nat) (l : List β) : List β :=
  seededSampleAux k seed l

/-- Fuel-indexed first-occurrence deduplication of the key `f` over a row
list; the fuel (initially the list length) makes the recursion structural. -/
def uniqueKeysAux {α β : Type} [DecidableEq β] (f : α → β) : Nat → List α → List β
  | 0, _ => []
  | _ + 1, [] => []
  | fuel + 1, r :: rs =>
    f r :: uniqueKeysAux f fuel (rs.filter (fun r2 => decide (f r2 ≠ f r)))

/-- Model of `df[col].unique()`: the distinct values of the key `f` over the
rows, in order of first occurrence. -/
def uniqueKeys {α β : Type} [DecidableEq β] (f : α → β) (l : List α) : List β :=
  uniqueKeysAux f l.length l

/-- Rows of the dataframe whose user column equals `x` (one pandas group of
`df.groupby(user_col)`). -/
def rowsOfUser {α : Type} (u : α → Int) (df : List α) (x : Int) : List α :=
  df.filter (fun r => decide (u r = x))

/-- Model of `df.groupby(user_col)[basket_col].nunique()` evaluated at user
`x`: the number of distinct basket values among that user's rows. -/
def nuniqueBaskets {α : Type} [DecidableEq α] (u b : α → Int) (df : List α) (x : Int) : Nat :=
  (uniqueKeys b (rowsOfUser u df x)).length

/-- Model of `df.groupby(user_col).size()` evaluated at user `x`: the raw
number of rows of that user. -/
def purchaseCount {α : Type} (u : α → Int) (df : List α) (x : Int) : Nat :=
  (rowsOfUser u df x).length

/-- Model of `df.groupby([user_col, basket_col]).size()` evaluated at the
pair `(x, y)`: the item count of that user's basket `y`. -/
def basketItemCount {α : Type} (u b : α → Int) (df : List α) (x y : Int) : Nat :=
  (df.filter (fun r => decide (u r = x ∧ b r = y))).length

/-- Model of `df.groupby(user_col)[basket_col].max()` evaluated at user `x`
(the defaulted value for an absent user is never consulted: the splitter
only evaluates it at users that do have rows). -/
def userMaxBasket {α : Type} (u b : α → Int) (df : List α) (x : Int) : Int :=
  match (rowsOfUser u df x).map b with
  | [] => 0
  | y :: ys => ys.foldl max y

/-- The set of distinct user values occurring in a row list, as a finset
(model of `set(df[user_col].unique())`). -/
def usersFinset {α : Type} (u : α → Int) (df : List α) : Finset Int :=
  (df.map u).toFinset

/-- The users drawn by `sample_random_users`: source lines `df[user_col].unique()`
then `pd.Series(unique_users).sample(n=min(n_users, len(unique_users)), random_state=42)`. -/
def sampled_users {α : Type} [DecidableEq α] (u : α → Int) (df : List α) (n : Nat) : List Int :=
  seededSample 42 (min n (uniqueKeys u df).length) (uniqueKeys u df)

/-- Model of `sample_random_users(df, n_users, user_col)`: keep the rows whose
user is among the sampled users (`df[df[user_col].isin(sampled_users)]`). -/
def sample_random_users {α : Type} [DecidableEq α] (u : α → Int) (df : List α) (n : Nat) : List α :=
  df.filter (fun r => decide (u r ∈ sampled_users u df n))

/-- Model of `filter_users_by_purchase_range(df, min_purchases, max_purchases, user_col)`:
count rows per user, list the users whose count lies in the range, and keep
the rows of those users. -/
def filter_users_by_purchase_range {α : Type} [DecidableEq α] (u : α → Int) (df : List α)
    (mn mx : Nat) : List α :=
  let users_in_range := (uniqueKeys u df).filter
    (fun x => decide (mn ≤ purchaseCount u df x ∧ purchaseCount u df x ≤ mx))
  df.filter (fun r => decide (u r ∈ users_in_range))

/-- Model of `filter_users_by_basket_count_range(df, min_baskets, max_baskets, user_col, basket_col)`:
count distinct baskets per user, list the users whose count lies in the
range, and keep the rows of those users. -/
def filter_users_by_basket_count_range {α : Type} [DecidableEq α] (u b : α → Int) (df : List α)
    (mn mx : Nat) : List α :=
  let users_in_range := (uniqueKeys u df).filter
    (fun x => decide (mn ≤ nuniqueBaskets u b df x ∧ nuniqueBaskets u b df x ≤ mx))
  df.filter (fun r => decide (u r ∈ users_in_range))

/-- Model of `filter_baskets_by_depth_range(df, min_items, max_items, basket_col, user_col)`:
count items per `(user, basket)` pair, list the pairs whose count lies in
the range, and keep the rows whose pair is listed. -/
def filter_baskets_by_depth_range {α : Type} [DecidableEq α] (u b : α → Int) (df : List α)
    (mn mx : Nat) : List α :=
  let baskets_in_range := (uniqueKeys (fun r => (u r, b r)) df).filter
    (fun q => decide (mn ≤ basketItemCount u b df q.1 q.2 ∧ basketItemCount u b df q.1 q.2 ≤ mx))
  df.filter (fun r => decide ((u r, b r) ∈ baskets_in_range))

/-- The products drawn by `filter_by_product_assortment`: source lines
`df[product_col].unique()` then `.sample(n=min(n_products, len(unique_products)), random_state=42)`. -/
def sampled_products {α : Type} [DecidableEq α] (p : α → Int) (df : List α) (n : Nat) : List Int :=
  seededSample 42 (min n (uniqueKeys p df).length) (uniqueKeys p df)

/-- Model of `filter_by_product_assortment(df, n_products, product_col, basket_col)`:
group the product column by the basket column ALONE, keep the basket values
whose whole product set is contained in the sampled products, and keep the
rows of those basket values (`df[df[basket_col].isin(valid_baskets)]`). -/
def filter_by_product_assortment {α : Type} [DecidableEq α] (p b : α → Int) (df : List α)
    (n : Nat) : List α :=
  let valid_baskets := (uniqueKeys b df).filter
    (fun y => decide (∀ r2 ∈ df, b r2 = y → p r2 ∈ sampled_products p df n))
  df.filter (fun r => decide (b r ∈ valid_baskets))

/-- The messages `split_history_future` prints: the no-multi-user warning,
the excluded/remaining user counts, the user-set-mismatch warning (with both
counts and both set differences) and the success message. -/
inductive LogMsg where
  | warnNoMultiUsers : LogMsg
  | filteredOutUsers (excluded remaining : Nat) : LogMsg
  | warnUserMismatch (futureCount historyCount : Nat) (onlyFuture onlyHistory : Finset Int) : LogMsg
  | successSameUsers (count : Nat) : LogMsg
  deriving DecidableEq

/-- Whether a log message is the splitter's user-set-mismatch warning. -/
def LogMsg.isMismatch : LogMsg → Bool
  | .warnUserMismatch _ _ _ _ => true
  | _ => false

/-- A dataframe together with its column names: the rows carry the data the
core reads, the column list carries the schema for the frame effects. -/
structure DF (α : Type) where
  cols : List String
  rows : List α
  deriving DecidableEq, Repr

/-- Result of `split_history_future`: the two output frames and the printed
messages in order. -/
structure SplitRes (α : Type) where
  history : DF α
  future : DF α
  log : List LogMsg
  deriving DecidableEq

/-- Column-level effect of `df_filtered.merge(most_recent_orders...)`: the
right-hand frame contributes `max_order`; when the left frame already has a
`max_order` column, pandas disambiguates the overlap with the `_x` / `_y`
suffixes. -/
def mergeMaxCols (cols : List String) : List String :=
  if "max_order" ∈ cols then
    (cols.map (fun c => if c = "max_order" then "max_order_x" else c)) ++ ["max_order_y"]
  else cols ++ ["max_order"]

/-- Column-level effect of `.drop(columns='max_order')`: removes the column,
or raises `KeyError` when no column has exactly that name. -/
def dropMaxCol (cols : List String) : Except String (List String) :=
  if "max_order" ∈ cols then .ok (cols.filter (fun c => decide (c ≠ "max_order")))
  else .error "KeyError: max_order"

/-- The users with at least 2 distinct baskets: source lines
`user_order_counts = df.groupby(user_col)[basket_col].nunique()` and
`users_with_multiple_orders = user_order_counts[user_order_counts >= 2].index`. -/
def multiBasketUsers {α : Type} [DecidableEq α] (u b : α → Int) (rows : List α) : List Int :=
  (uniqueKeys u rows).filter (fun x => decide (2 ≤ nuniqueBaskets u b rows x))

/-- The splitter's pre-filtered frame: source line
`df_filtered = df[df[user_col].isin(users_with_multiple_orders)]`. -/
def multiFiltered {α : Type} [DecidableEq α] (u b : α → Int) (rows : List α) : List α :=
  rows.filter (fun r => decide (u r ∈ multiBasketUsers u b rows))

/-- Rows of `future_df`: source lines `most_recent_orders = df_filtered.groupby(user_col)[basket_col].max()`
then the merge of that per-user maximum back onto `df_filtered` and
`future_mask = df_with_max[basket_col] == df_with_max['max_order']`; the
rows where the mask holds (the merge is row-preserving: the right side has
exactly one row per user of `df_filtered`). -/
def splitFutureRows {α : Type} [DecidableEq α] (u b : α → Int) (rows : List α) : List α :=
  (multiFiltered u b rows).filter
    (fun r => decide (b r = userMaxBasket u b (multiFiltered u b rows) (u r)))

/-- Rows of `history_df`: the rows of `df_filtered` where `future_mask` does
not hold (`df_with_max[~future_mask]`). -/
def splitHistoryRows {α : Type} [DecidableEq α] (u b : α → Int) (rows : List α) : List α :=
  (multiFiltered u b rows).filter
    (fun r => decide (¬ b r = userMaxBasket u b (multiFiltered u b rows) (u r)))

/-- The splitter's excluded/remaining report: printed only when
`original_users > filtered_users`, with the two counts. -/
def splitCountLog {α : Type} [DecidableEq α] (u b : α → Int) (rows : List α) : List LogMsg :=
  let original_users := (uniqueKeys u rows).length
  let filtered_users := (uniqueKeys u (multiFiltered u b rows)).length
  if filtered_users < original_users then
    [LogMsg.filteredOutUsers (original_users - filtered_users) filtered_users]
  else []

/-- The splitter's user-set check: source lines computing
`future_users`/`history_users` and printing either the mismatch warning
(with both counts and both set differences) or the success message. -/
def splitCheckLog {α : Type} [DecidableEq α] (u b : α → Int) (rows : List α) : List LogMsg :=
  let fUsers := usersFinset u (splitFutureRows u b rows)
  let hUsers := usersFinset u (splitHistoryRows u b rows)
  if hUsers ≠ fUsers then
    [LogMsg.warnUserMismatch fUsers.card hUsers.card (fUsers \ hUsers) (hUsers \ fUsers)]
  else [LogMsg.successSameUsers fUsers.card]

/-- Model of `split_history_future(df, user_col, basket_col)`.  Empty input
returns two copies of the input; when no user has 2 or more distinct baskets
the function warns and again returns two copies of the input; otherwise the
rows of each retained user whose basket equals that user's maximum basket go
to `future` and the remaining rows go to `history`, the user sets of the two
outputs are compared and reported, and the schema gains and then drops the
`max_order` helper column (a `KeyError` propagates when the input already
had a column of that name, since the merge then suffixes the overlap). -/
def split_history_future {α : Type} [DecidableEq α] (u b : α → Int) (df : DF α) :
    Except String (SplitRes α) :=
  if df.rows = [] then .ok ⟨df, df, []⟩
  else
    if multiFiltered u b df.rows = [] then .ok ⟨df, df, [.warnNoMultiUsers]⟩
    else
      (dropMaxCol (mergeMaxCols df.cols)).map (fun outCols =>
        ⟨⟨outCols, splitHistoryRows u b df.rows⟩, ⟨outCols, splitFutureRows u b df.rows⟩,
          splitCountLog u b df.rows ++ splitCheckLog u b df.rows⟩)


/-- The default schema of the repository's datasets. -/
def stdCols : List String := ["user_id", "order_number", "product_id"]

/-- Two users sharing the basket identifier 5; user 1's only product is the
sampled 10, user 2's product 20 is outside the sample. -/
def dfShared : List Row := [⟨1, 5, 10⟩, ⟨2, 5, 20⟩]

/-- One user whose baskets 1, 2 and 3 have sizes 1, 2 and 4 (the spec's
depth-filter scenario). -/
def dfDepth : List Row :=
  [⟨1, 1, 1⟩, ⟨1, 2, 1⟩, ⟨1, 2, 2⟩, ⟨1, 3, 1⟩, ⟨1, 3, 2⟩, ⟨1, 3, 3⟩, ⟨1, 3, 4⟩]

/-- Two users with one single-item basket each. -/
def dfPair : List Row := [⟨1, 1, 1⟩, ⟨2, 1, 1⟩]

/-- Users 1 and 2 both have exactly one distinct basket, with 1 and 2 rows
respectively. -/
def dfPurchase : List Row := [⟨1, 1, 1⟩, ⟨2, 1, 1⟩, ⟨2, 1, 2⟩]

/-- One user, basket 1 holding only the sampled product 10 and basket 2
holding the unsampled product 20. -/
def dfTwoBaskets : List Row := [⟨1, 1, 10⟩, ⟨1, 2, 20⟩]

/-- A single-row frame: its one user has a single basket. -/
def dfSingle : DF Row := ⟨stdCols, [⟨1, 1, 10⟩]⟩

/-- A frame whose only user has two rows in one single basket. -/
def dfOneBasket : DF Row := ⟨stdCols, [⟨3, 7, 1⟩, ⟨3, 7, 2⟩]⟩

/-- A single-row frame for the split counterexample on user 4. -/
def dfSingle4 : DF Row := ⟨stdCols, [⟨4, 9, 1⟩]⟩

/-- User 1 has baskets 1 and 2; user 2 has only basket 1. -/
def dfTriple : DF Row := ⟨stdCols, [⟨1, 1, 10⟩, ⟨1, 2, 11⟩, ⟨2, 1, 12⟩]⟩

/-! Basic lemmas about the deduplication and sampling primitives. -/

theorem mem_uniqueKeysAux {α β : Type} [DecidableEq β] (f : α → β) :
    ∀ (fuel : Nat) (l : List α), l.length ≤ fuel →
      ∀ y : β, (y ∈ uniqueKeysAux f fuel l ↔ ∃ r ∈ l, f r = y) := by
  intro fuel
  induction fuel with
  | zero =>
    intro l hl y
    have hnil : l = [] := List.length_eq_zero.mp (Nat.le_zero.mp hl)
    subst hnil
    simp [uniqueKeysAux]
  | succ n ih =>
    intro l hl y
    cases l with
    | nil => simp [uniqueKeysAux]
    | cons r rs =>
      have hlen : (rs.filter (fun r2 => decide (f r2 ≠ f r))).length ≤ n :=
        le_trans (List.length_filter_le _ _) (Nat.le_of_succ_le_succ hl)
      simp only [uniqueKeysAux, List.mem_cons]
      rw [ih _ hlen y]
      constructor
      · rintro (h | ⟨r2, hr2, hf⟩)
        · exact ⟨r, Or.inl rfl, h.symm⟩
        · exact ⟨r2, Or.inr (List.mem_filter.mp hr2).1, hf⟩
      · rintro ⟨r2, h | h, hf⟩
        · subst h
          exact Or.inl hf.symm
        · by_cases hEq : f r2 = f r
          · exact Or.inl (by rw [← hf, hEq])
          · exact Or.inr ⟨r2, List.mem_filter.mpr ⟨h, by simpa using hEq⟩, hf⟩

theorem mem_uniqueKeys {α β : Type} [DecidableEq β] (f : α → β) (l : List α) (y : β) :
    y ∈ uniqueKeys f l ↔ ∃ r ∈ l, f r = y :=
  mem_uniqueKeysAux f l.length l le_rfl y

theorem nodup_uniqueKeysAux {α β : Type} [DecidableEq β] (f : α → β) :
    ∀ (fuel : Nat) (l : List α), l.length ≤ fuel → (uniqueKeysAux f fuel l).Nodup := by
  intro fuel
  induction fuel with
  | zero =>
    intro l hl
    have hnil : l = [] := List.length_eq_zero.mp (Nat.le_zero.mp hl)
    subst hnil
    simp [uniqueKeysAux]
  | succ n ih =>
    intro l hl
    cases l with
    | nil => simp [uniqueKeysAux]
    | cons r rs =>
      have hlen : (rs.filter (fun r2 => decide (f r2 ≠ f r))).length ≤ n :=
        le_trans (List.length_filter_le _ _) (Nat.le_of_succ_le_succ hl)
      simp only [uniqueKeysAux, List.nodup_cons]
      refine ⟨?_, ih _ hlen⟩
      intro hmem
      rcases (mem_uniqueKeysAux f n _ hlen (f r)).mp hmem with ⟨r2, hr2, hf⟩
      exact absurd hf (by simpa using (List.mem_filter.mp hr2).2)

theorem nodup_uniqueKeys {α β : Type} [DecidableEq β] (f : α → β) (l : List α) :
    (uniqueKeys f l).Nodup :=
  nodup_uniqueKeysAux f l.length l le_rfl

theorem seededSampleAux_subset {β : Type} :
    ∀ (k s : Nat) (l : List β) (y : β), y ∈ seededSampleAux k s l → y ∈ l := by
  intro k
  induction k with
  | zero =>
    intro s l y h
    simp [seededSampleAux] at h
  | succ n ih =>
    intro s l y h
    cases l with
    | nil => simp [seededSampleAux] at h
    | cons x xs =>
      have hidx : s % (x :: xs).length < (x :: xs).length := Nat.mod_lt _ (by simp)
      simp only [seededSampleAux, List.mem_cons] at h
      rcases h with h | h
      · rw [List.getD_eq_getElem _ _ hidx] at h
        subst h
        exact (x :: xs).getElem_mem hidx
      · exact (List.eraseIdx_sublist (x :: xs) _).subset (ih _ _ _ h)

theorem seededSampleAux_length {β : Type} :
    ∀ (k s : Nat) (l : List β), k ≤ l.length → (seededSampleAux k s l).length = k := by
  intro k
  induction k with
  | zero =>
    intro s l _
    simp [seededSampleAux]
  | succ n ih =>
    intro s l h
    cases l with
    | nil => simp at h
    | cons x xs =>
      have hidx : s % (x :: xs).length < (x :: xs).length := Nat.mod_lt _ (by simp)
      have hle : n ≤ ((x :: xs).eraseIdx (s % (x :: xs).length)).length := by
        rw [List.length_eraseIdx_of_lt hidx]
        simp only [List.length_cons] at h ⊢
        omega
      have hrec := ih (lcgNext s) ((x :: xs).eraseIdx (s % (x :: xs).length)) hle
      simp only [List.length_cons] at hrec
      simp [seededSampleAux, hrec]

theorem getElem_not_mem_eraseIdx {β : Type} (l : List β) (i : Nat) (h : i < l.length)
    (hn : l.Nodup) : l[i] ∉ l.eraseIdx i := by
  intro hmem
  rw [List.eraseIdx_eq_take_drop_succ] at hmem
  have hsplit : l.take i ++ l[i] :: l.drop (i + 1) = l := by
    rw [← List.drop_eq_getElem_cons h, List.take_append_drop]
  rw [← hsplit, List.nodup_append] at hn
  rcases List.mem_append.mp hmem with h1 | h2
  · exact hn.2.2 h1 (List.mem_cons_self _ _)
  · exact (List.nodup_cons.mp hn.2.1).1 h2

theorem seededSampleAux_nodup {β : Type} :
    ∀ (k s : Nat) (l : List β), l.Nodup → (seededSampleAux k s l).Nodup := by
  intro k
  induction k with
  | zero =>
    intro s l _
    simp [seededSampleAux]
  | succ n ih =>
    intro s l hn
    cases l with
    | nil => simp [seededSampleAux]
    | cons x xs =>
      have hidx : s % (x :: xs).length < (x :: xs).length := Nat.mod_lt _ (by simp)
      simp only [seededSampleAux, List.nodup_cons]
      constructor
      · intro hmem
        have hsub := seededSampleAux_subset n (lcgNext s) _ _ hmem
        rw [List.getD_eq_getElem _ _ hidx] at hsub
        exact getElem_not_mem_eraseIdx _ _ hidx hn hsub
      · exact ih _ _ (List.Nodup.sublist (List.eraseIdx_sublist _ _) hn)

theorem seededSample_subset {β : Type} (seed k : Nat) (l : List β) :
    ∀ y ∈ seededSample seed k l, y ∈ l :=
  fun y hy => seededSampleAux_subset k seed l y hy

theorem seededSample_length {β : Type} (seed k : Nat) (l : List β) (h : k ≤ l.length) :
    (seededSample seed k l).length = k :=
  seededSampleAux_length k seed l h

theorem seededSample_nodup {β : Type} (seed k : Nat) (l : List β) (h : l.Nodup) :
    (seededSample seed k l).Nodup :=
  seededSampleAux_nodup k seed l h

/-! Lemmas about row selection by key. -/

theorem rowsOfUser_filter {α : Type} (u : α → Int) (q : α → Bool) (df : List α) (x : Int)
    (h : ∀ r ∈ df, u r = x → q r = true) :
    rowsOfUser u (df.filter q) x = rowsOfUser u df x := by
  unfold rowsOfUser
  rw [List.filter_filter]
  refine List.filter_congr ?_
  intro r hr
  by_cases hx : u r = x
  · simp [hx, h r hr hx]
  · simp [hx]

theorem mem_usersFinset {α : Type} (u : α → Int) (df : List α) (x : Int) :
    x ∈ usersFinset u df ↔ ∃ r ∈ df, u r = x := by
  unfold usersFinset
  simp [List.mem_toFinset, List.mem_map]

theorem mem_keyed_range_filter {α β : Type} [DecidableEq β] (key : α → β) (cnt : β → Nat)
    (df : List α) (mn mx : Nat) (r : α) :
    (r ∈ df.filter (fun r2 => decide (key r2 ∈ (uniqueKeys key df).filter
        (fun y => decide (mn ≤ cnt y ∧ cnt y ≤ mx))))) ↔
      (r ∈ df ∧ mn ≤ cnt (key r) ∧ cnt (key r) ≤ mx) := by
  simp only [List.mem_filter, decide_eq_true_iff]
  constructor
  · rintro ⟨hdf, hk, hrange⟩
    exact ⟨hdf, hrange⟩
  · rintro ⟨hdf, hrange⟩
    exact ⟨hdf, (mem_uniqueKeys key df (key r)).mpr ⟨r, hdf, rfl⟩, hrange⟩


/-! Membership characterizations of the filters. -/

theorem mem_filter_users_by_purchase_range {α : Type} [DecidableEq α] (u : α → Int)
    (df : List α) (mn mx : Nat) (r : α) :
    r ∈ filter_users_by_purchase_range u df mn mx ↔
      r ∈ df ∧ mn ≤ purchaseCount u df (u r) ∧ purchaseCount u df (u r) ≤ mx :=
  mem_keyed_range_filter u (purchaseCount u df) df mn mx r

theorem mem_filter_users_by_basket_count_range {α : Type} [DecidableEq α] (u b : α → Int)
    (df : List α) (mn mx : Nat) (r : α) :
    r ∈ filter_users_by_basket_count_range u b df mn mx ↔
      r ∈ df ∧ mn ≤ nuniqueBaskets u b df (u r) ∧ nuniqueBaskets u b df (u r) ≤ mx :=
  mem_keyed_range_filter u (nuniqueBaskets u b df) df mn mx r

theorem mem_filter_baskets_by_depth_range {α : Type} [DecidableEq α] (u b : α → Int)
    (df : List α) (mn mx : Nat) (r : α) :
    r ∈ filter_baskets_by_depth_range u b df mn mx ↔
      r ∈ df ∧ mn ≤ basketItemCount u b df (u r) (b r) ∧ basketItemCount u b df (u r) (b r) ≤ mx := by
  simpa [filter_baskets_by_depth_range] using
    mem_keyed_range_filter (fun r2 => (u r2, b r2)) (fun q => basketItemCount u b df q.1 q.2)
      df mn mx r

theorem mem_sample_random_users {α : Type} [DecidableEq α] (u : α → Int) (df : List α)
    (n : Nat) (r : α) :
    r ∈ sample_random_users u df n ↔ r ∈ df ∧ u r ∈ sampled_users u df n := by
  unfold sample_random_users
  simp [List.mem_filter]

theorem mem_filter_by_product_assortment {α : Type} [DecidableEq α] (p b : α → Int)
    (df : List α) (n : Nat) (r : α) :
    r ∈ filter_by_product_assortment p b df n ↔
      r ∈ df ∧ ∀ r2 ∈ df, b r2 = b r → p r2 ∈ sampled_products p df n := by
  unfold filter_by_product_assortment
  simp only [List.mem_filter, decide_eq_true_iff]
  constructor
  · rintro ⟨hdf, hb, hall⟩
    exact ⟨hdf, hall⟩
  · rintro ⟨hdf, hall⟩
    exact ⟨hdf, (mem_uniqueKeys b df (b r)).mpr ⟨r, hdf, rfl⟩, hall⟩

theorem basketItemCount_filter {α : Type} (u b : α → Int) (q : α → Bool) (df : List α)
    (x y : Int) (h : ∀ r ∈ df, u r = x ∧ b r = y → q r = true) :
    basketItemCount u b (df.filter q) x y = basketItemCount u b df x y := by
  unfold basketItemCount
  rw [List.filter_filter]
  congr 1
  refine List.filter_congr ?_
  intro r hr
  by_cases hx : u r = x ∧ b r = y
  · simp [hx.1, hx.2, h r hr hx]
  · simp [hx]


/-! Claim theorems for the sampler and the filters. -/

/-- C4: every basket retained by the assortment filter has all of its
products inside the sampled product set (a subset test, not an intersection
test), and a basket containing even one product outside the sampled set is
dropped wholesale: no row of that basket value survives. -/
theorem assortment_subset_law {α : Type} [DecidableEq α] (p b : α → Int) (df : List α)
    (n : Nat) :
    (∀ r ∈ filter_by_product_assortment p b df n, p r ∈ sampled_products p df n) ∧
    (∀ y : Int, (∃ r ∈ df, b r = y ∧ p r ∉ sampled_products p df n) →
      ∀ r2 ∈ filter_by_product_assortment p b df n, b r2 ≠ y) := by
  constructor
  · intro r hr
    have h := (mem_filter_by_product_assortment p b df n r).mp hr
    exact h.2 r h.1 rfl
  · rintro y ⟨r, hrdf, hby, hnp⟩ r2 hr2 hbeq
    have h := (mem_filter_by_product_assortment p b df n r2).mp hr2
    exact hnp (h.2 r hrdf (by rw [hby, hbeq]))

/-- Witness for C4 on `dfTwoBaskets` with one sampled product: the retained
row's product is sampled, and basket 2 (holding the unsampled product 20) is
dropped wholesale. -/
theorem assortment_subset_law_witness :
    (Row.product ⟨1, 1, 10⟩ ∈ sampled_products Row.product dfTwoBaskets 1) ∧
    (∀ r2 ∈ filter_by_product_assortment Row.product Row.basket dfTwoBaskets 1,
      Row.basket r2 ≠ 2) :=
  ⟨(assortment_subset_law Row.product Row.basket dfTwoBaskets 1).1 ⟨1, 1, 10⟩ (by decide),
   (assortment_subset_law Row.product Row.basket dfTwoBaskets 1).2 2
     ⟨⟨1, 2, 20⟩, by decide, by decide, by decide⟩⟩

/-- C5: `filter_by_product_assortment` identifies baskets by the basket
column alone.  On `dfShared` the two users share basket identifier 5; all of
user 1's own products are in the sampled set, yet the whole basket value is
dropped (the output is empty) because user 2's row with the same basket
identifier carries the unsampled product 20. -/
theorem assortment_groups_by_basket_col_alone :
    Row.basket ⟨1, 5, 10⟩ = Row.basket ⟨2, 5, 20⟩ ∧
    Row.user (⟨1, 5, 10⟩ : Row) ≠ Row.user ⟨2, 5, 20⟩ ∧
    rowsOfUser Row.user dfShared 1 = [⟨1, 5, 10⟩] ∧
    Row.product ⟨1, 5, 10⟩ ∈ sampled_products Row.product dfShared 1 ∧
    Row.product (⟨2, 5, 20⟩ : Row) ∉ sampled_products Row.product dfShared 1 ∧
    filter_by_product_assortment Row.product Row.basket dfShared 1 = [] := by
  decide

/-- C6: every `(user, basket)` pair present in the depth-filtered output has
the same item count there as in the input (whole-basket granularity), and
that count lies in the inclusive range. -/
theorem depth_filter_whole_baskets {α : Type} [DecidableEq α] (u b : α → Int) (df : List α)
    (mn mx : Nat) :
    ∀ r ∈ filter_baskets_by_depth_range u b df mn mx,
      basketItemCount u b (filter_baskets_by_depth_range u b df mn mx) (u r) (b r)
          = basketItemCount u b df (u r) (b r) ∧
      mn ≤ basketItemCount u b df (u r) (b r) ∧ basketItemCount u b df (u r) (b r) ≤ mx := by
  have expand : filter_baskets_by_depth_range u b df mn mx
      = df.filter (fun r2 => decide ((u r2, b r2) ∈
          (uniqueKeys (fun r3 => (u r3, b r3)) df).filter
          (fun q => decide (mn ≤ basketItemCount u b df q.1 q.2 ∧
            basketItemCount u b df q.1 q.2 ≤ mx)))) := rfl
  intro r hr
  have hmem := (mem_filter_baskets_by_depth_range u b df mn mx r).mp hr
  refine ⟨?_, hmem.2⟩
  have hqr : (decide ((u r, b r) ∈ (uniqueKeys (fun r3 => (u r3, b r3)) df).filter
      (fun q => decide (mn ≤ basketItemCount u b df q.1 q.2 ∧
        basketItemCount u b df q.1 q.2 ≤ mx)))) = true := by
    rw [expand] at hr
    exact (List.mem_filter.mp hr).2
  rw [expand, basketItemCount_filter]
  intro r2 _ hx
  rw [hx.1, hx.2]
  exact hqr

/-- Witness for C6 at the spec scenario (basket sizes 1, 2, 4 and range
[2, 3]): the surviving basket (1, 2) keeps its item count 2. -/
theorem depth_filter_whole_baskets_witness :
    basketItemCount Row.user Row.basket
        (filter_baskets_by_depth_range Row.user Row.basket dfDepth 2 3) 1 2
      = basketItemCount Row.user Row.basket dfDepth 1 2 ∧
    2 ≤ basketItemCount Row.user Row.basket dfDepth 1 2 ∧
    basketItemCount Row.user Row.basket dfDepth 1 2 ≤ 3 :=
  depth_filter_whole_baskets Row.user Row.basket dfDepth 2 3 ⟨1, 2, 1⟩ (by decide)

/-- C7: `filter_users_by_basket_count_range` is idempotent: the retained
users keep all of their rows, so their distinct-basket counts are unchanged
and a second application keeps everything. -/
theorem filter_users_by_basket_count_range_idempotent {α : Type} [DecidableEq α]
    (u b : α → Int) (df : List α) (mn mx : Nat) :
    filter_users_by_basket_count_range u b
        (filter_users_by_basket_count_range u b df mn mx) mn mx
      = filter_users_by_basket_count_range u b df mn mx := by
  have expand : ∀ l : List α, filter_users_by_basket_count_range u b l mn mx
      = l.filter (fun r2 => decide (u r2 ∈ (uniqueKeys u l).filter
          (fun x => decide (mn ≤ nuniqueBaskets u b l x ∧ nuniqueBaskets u b l x ≤ mx)))) :=
    fun l => rfl
  have hcount : ∀ r ∈ filter_users_by_basket_count_range u b df mn mx,
      nuniqueBaskets u b (filter_users_by_basket_count_range u b df mn mx) (u r)
        = nuniqueBaskets u b df (u r) := by
    intro r hr
    have hqr : (decide (u r ∈ (uniqueKeys u df).filter
        (fun x => decide (mn ≤ nuniqueBaskets u b df x ∧ nuniqueBaskets u b df x ≤ mx))))
          = true := by
      rw [expand df] at hr
      exact (List.mem_filter.mp hr).2
    unfold nuniqueBaskets
    rw [expand df, rowsOfUser_filter]
    intro r2 _ hx
    rw [hx]
    exact hqr
  rw [expand (filter_users_by_basket_count_range u b df mn mx)]
  apply List.filter_eq_self.mpr
  intro r hr
  have hmem := (mem_filter_users_by_basket_count_range u b df mn mx r).mp hr
  rw [decide_eq_true_iff]
  refine List.mem_filter.mpr ⟨?_, ?_⟩
  · exact (mem_uniqueKeys u _ (u r)).mpr ⟨r, hr, rfl⟩
  · rw [decide_eq_true_iff, hcount r hr]
    exact hmem.2

/-- C8: the sampler returns exactly `min n (distinct user count)` distinct
users, every record of a sampled user is retained, and every output record
belongs to the input and to a sampled user.  Determinism is inherent: the
model is a pure function of the input with the seed fixed at 42. -/
theorem sample_random_users_spec {α : Type} [DecidableEq α] (u : α → Int) (df : List α)
    (n : Nat) :
    (usersFinset u (sample_random_users u df n)).card = min n (usersFinset u df).card ∧
    (∀ r ∈ df, u r ∈ sampled_users u df n → r ∈ sample_random_users u df n) ∧
    (∀ r ∈ sample_random_users u df n, r ∈ df ∧ u r ∈ sampled_users u df n) := by
  refine ⟨?_, ?_, ?_⟩
  · have hS_nodup : (sampled_users u df n).Nodup := by
      unfold sampled_users
      exact seededSample_nodup 42 _ _ (nodup_uniqueKeys u df)
    have hS_len : (sampled_users u df n).length = min n (uniqueKeys u df).length := by
      unfold sampled_users
      exact seededSample_length 42 _ _ (min_le_right _ _)
    have hU : (usersFinset u df).card = (uniqueKeys u df).length := by
      have hEq : usersFinset u df = (uniqueKeys u df).toFinset := by
        apply Finset.ext
        intro x
        rw [mem_usersFinset, List.mem_toFinset, mem_uniqueKeys]
      rw [hEq, List.toFinset_card_of_nodup (nodup_uniqueKeys u df)]
    have hout : usersFinset u (sample_random_users u df n)
        = (sampled_users u df n).toFinset := by
      apply Finset.ext
      intro x
      rw [mem_usersFinset, List.mem_toFinset]
      constructor
      · rintro ⟨r, hr, hx⟩
        have h := (mem_sample_random_users u df n r).mp hr
        rw [← hx]
        exact h.2
      · intro hx
        have hxU : x ∈ uniqueKeys u df := by
          refine seededSample_subset 42 (min n (uniqueKeys u df).length) _ x ?_
          exact hx
        rcases (mem_uniqueKeys u df x).mp hxU with ⟨r, hrdf, hrx⟩
        exact ⟨r, (mem_sample_random_users u df n r).mpr
          ⟨hrdf, by rw [hrx]; exact hx⟩, hrx⟩
    rw [hout, List.toFinset_card_of_nodup hS_nodup, hS_len, hU]
  · intro r hrdf hru
    exact (mem_sample_random_users u df n r).mpr ⟨hrdf, hru⟩
  · intro r hr
    exact (mem_sample_random_users u df n r).mp hr

/-- Witness for C8 on `dfPair` with `n = 1`: the sampled user's record is in
the output. -/
theorem sample_random_users_spec_witness :
    (⟨1, 1, 1⟩ : Row) ∈ sample_random_users Row.user dfPair 1 :=
  (sample_random_users_spec Row.user dfPair 1).2.1 ⟨1, 1, 1⟩ (by decide) (by decide)

/-- C10: the purchase-range filter retains exactly the rows of users whose
raw row count lies in the range; on `dfPurchase` the two users have the
same distinct-basket count yet only user 2 (two rows) survives the range
[2, 2]. -/
theorem purchase_range_uses_row_counts :
    (∀ (α : Type) [DecidableEq α], ∀ (u : α → Int) (df : List α) (mn mx : Nat) (r : α),
        r ∈ filter_users_by_purchase_range u df mn mx ↔
          r ∈ df ∧ mn ≤ purchaseCount u df (u r) ∧ purchaseCount u df (u r) ≤ mx) ∧
    nuniqueBaskets Row.user Row.basket dfPurchase 1
        = nuniqueBaskets Row.user Row.basket dfPurchase 2 ∧
    filter_users_by_purchase_range Row.user dfPurchase 2 2 = [⟨2, 1, 1⟩, ⟨2, 1, 2⟩] := by
  refine ⟨?_, by decide, by decide⟩
  intro α _ u df mn mx r
  exact mem_filter_users_by_purchase_range u df mn mx r

/-- Witness for C10: user 2's first row is retained by the range [2, 2] on
`dfPurchase`. -/
theorem purchase_range_uses_row_counts_witness :
    (⟨2, 1, 1⟩ : Row) ∈ filter_users_by_purchase_range Row.user dfPurchase 2 2 :=
  (purchase_range_uses_row_counts.1 Row Row.user dfPurchase 2 2 ⟨2, 1, 1⟩).mpr
    ⟨by decide, by decide, by decide⟩

/-! Lemmas about the splitter's components. -/

theorem foldl_max_mem (ys : List Int) : ∀ y : Int, ys.foldl max y ∈ y :: ys := by
  induction ys with
  | nil =>
    intro y
    simp
  | cons z zs ih =>
    intro y
    simp only [List.foldl_cons]
    rcases List.mem_cons.mp (ih (max y z)) with h | h
    · rcases max_choice y z with hm | hm
      · rw [h, hm]
        exact List.mem_cons_self _ _
      · rw [h, hm]
        exact List.mem_cons_of_mem _ (List.mem_cons_self _ _)
    · exact List.mem_cons_of_mem _ (List.mem_cons_of_mem _ h)

theorem exists_two_distinct {γ : Type} (l : List γ) (h : 2 ≤ l.length) (hn : l.Nodup)
    (M : γ) : ∃ v ∈ l, v ≠ M := by
  cases l with
  | nil => simp at h
  | cons a l2 =>
    cases l2 with
    | nil => simp at h
    | cons c l3 =>
      by_cases hA : a = M
      · refine ⟨c, by simp, ?_⟩
        subst hA
        intro hc
        subst hc
        exact (List.nodup_cons.mp hn).1 (List.mem_cons_self _ _)
      · exact ⟨a, by simp, hA⟩

theorem mem_rowsOfUser {α : Type} (u : α → Int) (df : List α) (x : Int) (r : α) :
    r ∈ rowsOfUser u df x ↔ r ∈ df ∧ u r = x := by
  unfold rowsOfUser
  simp [List.mem_filter]

theorem rowsOfUser_ne_nil {α : Type} [DecidableEq α] (u b : α → Int) (rows : List α) (x : Int)
    (h : 1 ≤ nuniqueBaskets u b rows x) : rowsOfUser u rows x ≠ [] := by
  intro hnil
  unfold nuniqueBaskets at h
  rw [hnil] at h
  simp [uniqueKeys, uniqueKeysAux] at h

theorem userMaxBasket_mem {α : Type} (u b : α → Int) (df : List α) (x : Int)
    (h : rowsOfUser u df x ≠ []) :
    userMaxBasket u b df x ∈ (rowsOfUser u df x).map b := by
  unfold userMaxBasket
  cases hm : (rowsOfUser u df x).map b with
  | nil => exact absurd (List.map_eq_nil_iff.mp hm) h
  | cons y ys => exact foldl_max_mem ys y

theorem mem_multiFiltered {α : Type} [DecidableEq α] (u b : α → Int) (rows : List α) (r : α) :
    r ∈ multiFiltered u b rows ↔ r ∈ rows ∧ 2 ≤ nuniqueBaskets u b rows (u r) := by
  unfold multiFiltered multiBasketUsers
  simp only [List.mem_filter, decide_eq_true_iff]
  constructor
  · rintro ⟨hr, hmem, h2⟩
    exact ⟨hr, h2⟩
  · rintro ⟨hr, h2⟩
    exact ⟨hr, (mem_uniqueKeys u rows (u r)).mpr ⟨r, hr, rfl⟩, h2⟩

theorem rowsOfUser_multiFiltered {α : Type} [DecidableEq α] (u b : α → Int) (rows : List α)
    (x : Int) (hx : 2 ≤ nuniqueBaskets u b rows x) :
    rowsOfUser u (multiFiltered u b rows) x = rowsOfUser u rows x := by
  unfold multiFiltered
  apply rowsOfUser_filter
  intro r2 hr2 hxx
  simp only [decide_eq_true_iff]
  rw [hxx]
  unfold multiBasketUsers
  refine List.mem_filter.mpr ⟨(mem_uniqueKeys u rows x).mpr ⟨r2, hr2, hxx⟩, ?_⟩
  simpa using hx

theorem nuniqueBaskets_multiFiltered {α : Type} [DecidableEq α] (u b : α → Int)
    (rows : List α) (x : Int) (hx : 2 ≤ nuniqueBaskets u b rows x) :
    nuniqueBaskets u b (multiFiltered u b rows) x = nuniqueBaskets u b rows x := by
  unfold nuniqueBaskets
  rw [rowsOfUser_multiFiltered u b rows x hx]

theorem userMaxBasket_multiFiltered {α : Type} [DecidableEq α] (u b : α → Int)
    (rows : List α) (x : Int) (hx : 2 ≤ nuniqueBaskets u b rows x) :
    userMaxBasket u b (multiFiltered u b rows) x = userMaxBasket u b rows x := by
  unfold userMaxBasket
  rw [rowsOfUser_multiFiltered u b rows x hx]

theorem mem_splitFutureRows {α : Type} [DecidableEq α] (u b : α → Int) (rows : List α)
    (r : α) :
    r ∈ splitFutureRows u b rows ↔
      r ∈ multiFiltered u b rows ∧
        b r = userMaxBasket u b (multiFiltered u b rows) (u r) := by
  unfold splitFutureRows
  simp [List.mem_filter]

theorem mem_splitHistoryRows {α : Type} [DecidableEq α] (u b : α → Int) (rows : List α)
    (r : α) :
    r ∈ splitHistoryRows u b rows ↔
      r ∈ multiFiltered u b rows ∧
        ¬ b r = userMaxBasket u b (multiFiltered u b rows) (u r) := by
  unfold splitHistoryRows
  simp [List.mem_filter]

theorem users_split_eq {α : Type} [DecidableEq α] (u b : α → Int) (rows : List α) :
    usersFinset u (splitHistoryRows u b rows) = usersFinset u (splitFutureRows u b rows) := by
  apply Finset.ext
  intro x
  rw [mem_usersFinset, mem_usersFinset]
  constructor
  · rintro ⟨r, hr, hx⟩
    have hmem := (mem_splitHistoryRows u b rows r).mp hr
    have hF := (mem_multiFiltered u b rows r).mp hmem.1
    have h2 : 2 ≤ nuniqueBaskets u b rows x := by
      rw [← hx]
      exact hF.2
    have hne : rowsOfUser u (multiFiltered u b rows) x ≠ [] := by
      rw [rowsOfUser_multiFiltered u b rows x h2]
      exact rowsOfUser_ne_nil u b rows x (le_trans one_le_two h2)
    obtain ⟨v, hv, hvb⟩ := List.mem_map.mp (userMaxBasket_mem u b (multiFiltered u b rows) x hne)
    obtain ⟨hvF, hvx⟩ := (mem_rowsOfUser u (multiFiltered u b rows) x v).mp hv
    refine ⟨v, (mem_splitFutureRows u b rows v).mpr ⟨hvF, ?_⟩, hvx⟩
    rw [hvx]
    exact hvb
  · rintro ⟨r, hr, hx⟩
    have hmem := (mem_splitFutureRows u b rows r).mp hr
    have hF := (mem_multiFiltered u b rows r).mp hmem.1
    have h2 : 2 ≤ nuniqueBaskets u b rows x := by
      rw [← hx]
      exact hF.2
    have h2F : 2 ≤ (uniqueKeys b (rowsOfUser u (multiFiltered u b rows) x)).length := by
      have hnn := nuniqueBaskets_multiFiltered u b rows x h2
      unfold nuniqueBaskets at hnn
      rw [hnn]
      exact h2
    obtain ⟨v, hvK, hvne⟩ := exists_two_distinct _ h2F (nodup_uniqueKeys _ _)
      (userMaxBasket u b (multiFiltered u b rows) x)
    obtain ⟨r2, hr2rows, hr2b⟩ := (mem_uniqueKeys b _ v).mp hvK
    obtain ⟨hr2F, hr2x⟩ := (mem_rowsOfUser u (multiFiltered u b rows) x r2).mp hr2rows
    refine ⟨r2, (mem_splitHistoryRows u b rows r2).mpr ⟨hr2F, ?_⟩, hr2x⟩
    rw [hr2x, hr2b]
    exact hvne

theorem splitCheckLog_eq_success {α : Type} [DecidableEq α] (u b : α → Int) (rows : List α) :
    splitCheckLog u b rows
      = [LogMsg.successSameUsers (usersFinset u (splitFutureRows u b rows)).card] := by
  simp only [splitCheckLog]
  rw [if_neg (not_ne_iff.mpr (users_split_eq u b rows))]

theorem splitCountLog_no_mismatch {α : Type} [DecidableEq α] (u b : α → Int) (rows : List α) :
    ∀ m ∈ splitCountLog u b rows, m.isMismatch = false := by
  intro m hm
  simp only [splitCountLog] at hm
  split at hm
  · rw [List.mem_singleton] at hm
    subst hm
    rfl
  · simp at hm

theorem dropMaxCol_mergeMaxCols_of_not_mem (cols : List String) (h : "max_order" ∉ cols) :
    dropMaxCol (mergeMaxCols cols) = .ok cols := by
  unfold mergeMaxCols dropMaxCol
  rw [if_neg h, if_pos (by simp)]
  have h2 : ∀ c ∈ cols, (decide (c ≠ "max_order")) = true := by
    intro c hc
    simp only [decide_eq_true_iff]
    intro hcm
    exact h (hcm ▸ hc)
  rw [List.filter_append, List.filter_eq_self.mpr h2]
  simp

theorem dropMaxCol_mergeMaxCols_of_mem (cols : List String) (h : "max_order" ∈ cols) :
    dropMaxCol (mergeMaxCols cols) = .error "KeyError: max_order" := by
  unfold mergeMaxCols dropMaxCol
  rw [if_pos h, if_neg]
  intro hmem
  rcases List.mem_append.mp hmem with h1 | h2
  · rcases List.mem_map.mp h1 with ⟨c, hc, hcm⟩
    by_cases hce : c = "max_order"
    · rw [if_pos hce] at hcm
      exact absurd hcm (by decide)
    · rw [if_neg hce] at hcm
      exact hce hcm
  · exact absurd (List.mem_singleton.mp h2) (by decide)

theorem rows_ne_nil_of_multiFiltered_ne_nil {α : Type} [DecidableEq α] (u b : α → Int)
    (rows : List α) (h : multiFiltered u b rows ≠ []) : rows ≠ [] := by
  intro hnil
  apply h
  rw [hnil]
  rfl

theorem split_eq_of_nil {α : Type} [DecidableEq α] (u b : α → Int) (df : DF α)
    (h : df.rows = []) : split_history_future u b df = .ok ⟨df, df, []⟩ := by
  unfold split_history_future
  rw [if_pos h]

theorem split_eq_of_noMulti {α : Type} [DecidableEq α] (u b : α → Int) (df : DF α)
    (h1 : df.rows ≠ []) (h2 : multiFiltered u b df.rows = []) :
    split_history_future u b df = .ok ⟨df, df, [.warnNoMultiUsers]⟩ := by
  unfold split_history_future
  rw [if_neg h1, if_pos h2]

theorem split_eq_of_main {α : Type} [DecidableEq α] (u b : α → Int) (df : DF α)
    (h2 : multiFiltered u b df.rows ≠ []) (h3 : "max_order" ∉ df.cols) :
    split_history_future u b df = .ok ⟨⟨df.cols, splitHistoryRows u b df.rows⟩,
      ⟨df.cols, splitFutureRows u b df.rows⟩,
      splitCountLog u b df.rows ++ splitCheckLog u b df.rows⟩ := by
  have h1 : df.rows ≠ [] := rows_ne_nil_of_multiFiltered_ne_nil u b df.rows h2
  unfold split_history_future
  rw [if_neg h1, if_neg h2, dropMaxCol_mergeMaxCols_of_not_mem df.cols h3]
  rfl

theorem split_eq_error_of_maxCol {α : Type} [DecidableEq α] (u b : α → Int) (df : DF α)
    (h2 : multiFiltered u b df.rows ≠ []) (h3 : "max_order" ∈ df.cols) :
    split_history_future u b df = .error "KeyError: max_order" := by
  have h1 : df.rows ≠ [] := rows_ne_nil_of_multiFiltered_ne_nil u b df.rows h2
  unfold split_history_future
  rw [if_neg h1, if_neg h2, dropMaxCol_mergeMaxCols_of_mem df.cols h3]
  rfl

theorem split_ok_rows {α : Type} [DecidableEq α] (u b : α → Int) (df : DF α)
    (res : SplitRes α) (h2 : multiFiltered u b df.rows ≠ [])
    (hok : split_history_future u b df = .ok res) :
    res.history.rows = splitHistoryRows u b df.rows ∧
    res.future.rows = splitFutureRows u b df.rows ∧
    res.log = splitCountLog u b df.rows ++ splitCheckLog u b df.rows := by
  by_cases h3 : "max_order" ∈ df.cols
  · rw [split_eq_error_of_maxCol u b df h2 h3] at hok
    exact absurd hok (by simp)
  · rw [split_eq_of_main u b df h2 h3] at hok
    injection hok with h
    subst h
    exact ⟨rfl, rfl, rfl⟩

/-! Claim theorems for the splitter. -/

/-- C1 counterexample: on the non-empty frame `dfSingle` no user has 2 or
more distinct baskets, yet `split_history_future` returns two FULL copies of
the input — not two empty outputs — and its warning carries no counts. -/
theorem split_no_multi_outputs_are_full_copies :
    multiFiltered Row.user Row.basket dfSingle.rows = [] ∧
    dfSingle.rows ≠ [] ∧
    split_history_future Row.user Row.basket dfSingle
      = .ok ⟨dfSingle, dfSingle, [.warnNoMultiUsers]⟩ := by
  decide

/-- C1 amended: if split is invoked on a non-empty dataset in which no users
remain after excluding users with fewer than 2 distinct baskets, it reports
the condition with a count-free warning and returns two full copies of the
input dataset rather than crashing. -/
theorem split_no_multi_users_fallback {α : Type} [DecidableEq α] (u b : α → Int)
    (df : DF α) (h1 : df.rows ≠ []) (h2 : multiFiltered u b df.rows = []) :
    split_history_future u b df = .ok ⟨df, df, [.warnNoMultiUsers]⟩ :=
  split_eq_of_noMulti u b df h1 h2

/-- Witness for the amended C1 on `dfOneBasket` (two rows, one basket). -/
theorem split_no_multi_users_fallback_witness :
    split_history_future Row.user Row.basket dfOneBasket
      = .ok ⟨dfOneBasket, dfOneBasket, [.warnNoMultiUsers]⟩ :=
  split_no_multi_users_fallback Row.user Row.basket dfOneBasket (by decide) (by decide)

/-- C2: whenever the splitter returns outputs, the set of users in the
history output equals the set of users in the future output, and no message
in its log is the user-mismatch warning (the mismatch branch, which would
surface the differing user sets rather than correct them, is never taken). -/
theorem split_user_sets_equal {α : Type} [DecidableEq α] (u b : α → Int) (df : DF α)
    (res : SplitRes α) (hok : split_history_future u b df = .ok res) :
    usersFinset u res.history.rows = usersFinset u res.future.rows ∧
    ∀ m ∈ res.log, m.isMismatch = false := by
  by_cases h1 : df.rows = []
  · rw [split_eq_of_nil u b df h1] at hok
    injection hok with h
    subst h
    refine ⟨rfl, ?_⟩
    intro m hm
    simp at hm
  · by_cases h2 : multiFiltered u b df.rows = []
    · rw [split_eq_of_noMulti u b df h1 h2] at hok
      injection hok with h
      subst h
      refine ⟨rfl, ?_⟩
      intro m hm
      have hm2 : m ∈ [LogMsg.warnNoMultiUsers] := hm
      rw [List.mem_singleton] at hm2
      subst hm2
      rfl
    · obtain ⟨hh, hf, hl⟩ := split_ok_rows u b df res h2 hok
      refine ⟨?_, ?_⟩
      · rw [hh, hf]
        exact users_split_eq u b df.rows
      · intro m hm
        rw [hl] at hm
        rcases List.mem_append.mp hm with hc | hc
        · exact splitCountLog_no_mismatch u b df.rows m hc
        · rw [splitCheckLog_eq_success u b df.rows, List.mem_singleton] at hc
          subst hc
          rfl

/-- Witness for C2 on `dfTriple`: the history and future outputs both
contain exactly user 1. -/
theorem split_user_sets_equal_witness :
    usersFinset Row.user [(⟨1, 1, 10⟩ : Row)] = usersFinset Row.user [(⟨1, 2, 11⟩ : Row)] :=
  (split_user_sets_equal Row.user Row.basket dfTriple
    ⟨⟨stdCols, [⟨1, 1, 10⟩]⟩, ⟨stdCols, [⟨1, 2, 11⟩]⟩,
      [.filteredOutUsers 1 1, .successSameUsers 1]⟩ (by decide)).1

/-- C3 counterexample: on the non-empty single-basket frame `dfSingle4` the
split returns full copies of the input, so user 4 — who has only 1 distinct
basket — appears in both outputs instead of being excluded. -/
theorem split_single_basket_user_not_excluded :
    split_history_future Row.user Row.basket dfSingle4
      = .ok ⟨dfSingle4, dfSingle4, [.warnNoMultiUsers]⟩ ∧
    (⟨4, 9, 1⟩ : Row) ∈ dfSingle4.rows ∧
    nuniqueBaskets Row.user Row.basket dfSingle4.rows 4 < 2 := by
  decide

/-- C3 amended (the stated partition law holds provided at least one user
has 2 or more distinct baskets; otherwise the fallback returns full copies):
both outputs contain only users with at least 2 distinct baskets; a retained
row is in future exactly when its basket equals its user's maximum basket
(ties included) and in history exactly otherwise; and the two outputs are
disjoint and drawn from the input rows. -/
theorem split_partitions_retained_users {α : Type} [DecidableEq α] (u b : α → Int)
    (df : DF α) (res : SplitRes α) (h2 : multiFiltered u b df.rows ≠ [])
    (hok : split_history_future u b df = .ok res) :
    (∀ r ∈ res.history.rows, 2 ≤ nuniqueBaskets u b df.rows (u r)) ∧
    (∀ r ∈ res.future.rows, 2 ≤ nuniqueBaskets u b df.rows (u r)) ∧
    (∀ r ∈ df.rows, 2 ≤ nuniqueBaskets u b df.rows (u r) →
      ((r ∈ res.future.rows ↔ b r = userMaxBasket u b df.rows (u r)) ∧
       (r ∈ res.history.rows ↔ ¬ b r = userMaxBasket u b df.rows (u r)))) ∧
    (∀ r : α, r ∈ res.history.rows ∨ r ∈ res.future.rows →
      r ∈ df.rows ∧ ¬ (r ∈ res.history.rows ∧ r ∈ res.future.rows)) := by
  obtain ⟨hh, hf, _⟩ := split_ok_rows u b df res h2 hok
  rw [hh, hf]
  refine ⟨?_, ?_, ?_, ?_⟩
  · intro r hr
    exact ((mem_multiFiltered u b df.rows r).mp
      ((mem_splitHistoryRows u b df.rows r).mp hr).1).2
  · intro r hr
    exact ((mem_multiFiltered u b df.rows r).mp
      ((mem_splitFutureRows u b df.rows r).mp hr).1).2
  · intro r hrdf hcnt
    have hrF : r ∈ multiFiltered u b df.rows :=
      (mem_multiFiltered u b df.rows r).mpr ⟨hrdf, hcnt⟩
    have hmax := userMaxBasket_multiFiltered u b df.rows (u r) hcnt
    constructor
    · rw [mem_splitFutureRows, hmax]
      exact ⟨fun h => h.2, fun h => ⟨hrF, h⟩⟩
    · rw [mem_splitHistoryRows, hmax]
      exact ⟨fun h => h.2, fun h => ⟨hrF, h⟩⟩
  · intro r hr
    have hrF : r ∈ multiFiltered u b df.rows := by
      rcases hr with hr | hr
      · exact ((mem_splitHistoryRows u b df.rows r).mp hr).1
      · exact ((mem_splitFutureRows u b df.rows r).mp hr).1
    refine ⟨((mem_multiFiltered u b df.rows r).mp hrF).1, ?_⟩
    rintro ⟨hhist, hfut⟩
    exact ((mem_splitHistoryRows u b df.rows r).mp hhist).2
      ((mem_splitFutureRows u b df.rows r).mp hfut).2

/-- Witness for the amended C3 on `dfTriple`: the future row ⟨1, 2, 11⟩
belongs to a user with 2 distinct baskets. -/
theorem split_partitions_retained_users_witness :
    2 ≤ nuniqueBaskets Row.user Row.basket dfTriple.rows 1 :=
  (split_partitions_retained_users Row.user Row.basket dfTriple
    ⟨⟨stdCols, [⟨1, 1, 10⟩]⟩, ⟨stdCols, [⟨1, 2, 11⟩]⟩,
      [.filteredOutUsers 1 1, .successSameUsers 1]⟩
    (by decide) (by decide)).2.1 ⟨1, 2, 11⟩ (by decide)

/-- C9: whenever the splitter returns outputs, both the history and the
future frame carry exactly the input frame's columns (the helper
`max_order` column is added by the merge and dropped again; a pre-existing
`max_order` column makes the drop raise instead of returning). -/
theorem split_preserves_schema {α : Type} [DecidableEq α] (u b : α → Int) (df : DF α)
    (res : SplitRes α) (hok : split_history_future u b df = .ok res) :
    res.history.cols = df.cols ∧ res.future.cols = df.cols := by
  by_cases h1 : df.rows = []
  · rw [split_eq_of_nil u b df h1] at hok
    injection hok with h
    subst h
    exact ⟨rfl, rfl⟩
  · by_cases h2 : multiFiltered u b df.rows = []
    · rw [split_eq_of_noMulti u b df h1 h2] at hok
      injection hok with h
      subst h
      exact ⟨rfl, rfl⟩
    · by_cases h3 : "max_order" ∈ df.cols
      · rw [split_eq_error_of_maxCol u b df h2 h3] at hok
        exact absurd hok (by simp)
      · rw [split_eq_of_main u b df h2 h3] at hok
        injection hok with h
        subst h
        exact ⟨rfl, rfl⟩

/-- Witness for C9 on `dfTriple`: the history output's columns equal the
input columns. -/
theorem split_preserves_schema_witness :
    (DF.mk stdCols [(⟨1, 1, 10⟩ : Row)]).cols = dfTriple.cols :=
  (split_preserves_schema Row.user Row.basket dfTriple
    ⟨⟨stdCols, [⟨1, 1, 10⟩]⟩, ⟨stdCols, [⟨1, 2, 11⟩]⟩,
      [.filteredOutUsers 1 1, .successSameUsers 1]⟩ (by decide)).1

end NBR
